import Mathlib

/-
Verification of the Dane County Elections MCP server (src/index.ts).

The development shallowly embeds the three components of the server:
the API gateway `makeApiRequest`, the static tool registry `TOOLS`,
and the dispatcher `handleToolCall` together with the two request
handlers registered in `main`.  The JavaScript JSON runtime functions
`JSON.stringify(x, null, 2)` and `JSON.parse` are modelled by
`stringify` and `parse` over an inductive `Json` type (numbers are
modelled as integers).  The outbound HTTP fetch is modelled by an
oracle mapping a URL and headers to either a response or a thrown
value, and thrown JavaScript values are modelled by `Thrown`, which
distinguishes `Error` instances (carrying a message) from all other
values.
-/

namespace DaneCounty

/-- JSON values as manipulated by the server.  Objects keep their fields
in insertion order, mirroring JavaScript objects; numbers are modelled
as integers. -/
inductive Json where
  | null : Json
  | bool (b : Bool) : Json
  | num (n : Int) : Json
  | str (s : String) : Json
  | arr (elems : List Json) : Json
  | obj (fields : List (String × Json)) : Json
deriving Repr

/-- Left brace character (written via its code point). -/
def lbrace : Char := Char.ofNat 123

/-- Right brace character (written via its code point). -/
def rbrace : Char := Char.ofNat 125

/-- Lower-case hexadecimal digit for a value below 16. -/
def hexDigitChar (n : Nat) : Char :=
  if n < 10 then Char.ofNat (48 + n) else Char.ofNat (87 + n)

/-- Four-digit lower-case hexadecimal rendering of a code point,
as used by the JavaScript string serializer for control characters. -/
def hex4 (n : Nat) : List Char :=
  [hexDigitChar (n / 4096 % 16), hexDigitChar (n / 256 % 16),
   hexDigitChar (n / 16 % 16), hexDigitChar (n % 16)]

/-- Escape of one character inside a JSON string literal, following the
JavaScript `QuoteJSONString` algorithm used by `JSON.stringify`. -/
def escapeChar (c : Char) : List Char :=
  if c = Char.ofNat 34 then [Char.ofNat 92, Char.ofNat 34]
  else if c = Char.ofNat 92 then [Char.ofNat 92, Char.ofNat 92]
  else if c = Char.ofNat 8 then [Char.ofNat 92, 'b']
  else if c = Char.ofNat 12 then [Char.ofNat 92, 'f']
  else if c = Char.ofNat 10 then [Char.ofNat 92, 'n']
  else if c = Char.ofNat 13 then [Char.ofNat 92, 'r']
  else if c = Char.ofNat 9 then [Char.ofNat 92, 't']
  else if c.toNat < 32 then Char.ofNat 92 :: 'u' :: hex4 c.toNat
  else [c]

/-- Escape every character of a JSON string body. -/
def escChars : List Char → List Char
  | [] => []
  | c :: cs => escapeChar c ++ escChars cs

/-- A quoted JSON string literal. -/
def quoteChars (cs : List Char) : List Char :=
  Char.ofNat 34 :: (escChars cs ++ [Char.ofNat 34])

/-- Decimal digit character. -/
def digitChar (n : Nat) : Char := Char.ofNat (48 + n)

/-- Decimal digits with explicit recursion depth, structurally recursive
so that the kernel can evaluate it. -/
def natDigitsF : Nat → Nat → List Char
  | 0, n => [digitChar n]
  | fuel + 1, n =>
      if n < 10 then [digitChar n]
      else natDigitsF fuel (n / 10) ++ [digitChar (n % 10)]

/-- Decimal digits of a natural number, most significant first. -/
def natDigits (n : Nat) : List Char := natDigitsF n n

/-- Decimal rendering of an integer, as JavaScript prints integral numbers. -/
def intDigits : Int → List Char
  | Int.ofNat n => natDigits n
  | Int.negSucc m => '-' :: natDigits (m + 1)

/-- Indentation: `n` spaces. -/
def indentChars (n : Nat) : List Char := List.replicate n ' '

mutual

/-- Model of `JSON.stringify(v, null, 2)` at indentation level `ind`:
the serialization of one JSON value, as a character list. -/
def stringifyVal : Nat → Json → List Char
  | _, Json.null => 'n' :: 'u' :: 'l' :: 'l' :: []
  | _, Json.bool true => 't' :: 'r' :: 'u' :: 'e' :: []
  | _, Json.bool false => 'f' :: 'a' :: 'l' :: 's' :: 'e' :: []
  | _, Json.num n => intDigits n
  | _, Json.str s => quoteChars s.data
  | _, Json.arr [] => ['[', ']']
  | ind, Json.arr (x :: xs) =>
      '[' :: Char.ofNat 10 :: (indentChars (ind + 2) ++
        (stringifyVal (ind + 2) x ++ (stringifyItems (ind + 2) xs ++
          (Char.ofNat 10 :: (indentChars ind ++ [']'])))))
  | _, Json.obj [] => [lbrace, rbrace]
  | ind, Json.obj (f :: fs) =>
      lbrace :: Char.ofNat 10 :: (indentChars (ind + 2) ++
        (memberChars (ind + 2) f ++ (stringifyMembers (ind + 2) fs ++
          (Char.ofNat 10 :: (indentChars ind ++ [rbrace])))))

/-- Serialization of the remaining array elements, each preceded by
a comma, a newline and the current indentation. -/
def stringifyItems : Nat → List Json → List Char
  | _, [] => []
  | ind, x :: xs =>
      ',' :: Char.ofNat 10 :: (indentChars ind ++
        (stringifyVal ind x ++ stringifyItems ind xs))

/-- Serialization of one object member: quoted key, colon, space, value. -/
def memberChars : Nat → String × Json → List Char
  | ind, (k, v) => quoteChars k.data ++ (':' :: ' ' :: stringifyVal ind v)

/-- Serialization of the remaining object members. -/
def stringifyMembers : Nat → List (String × Json) → List Char
  | _, [] => []
  | ind, f :: fs =>
      ',' :: Char.ofNat 10 :: (indentChars ind ++
        (memberChars ind f ++ stringifyMembers ind fs))

end

/-- Model of `JSON.stringify(v, null, 2)` as called by the dispatcher. -/
def stringify (j : Json) : String := String.mk (stringifyVal 0 j)

/-- JSON insignificant whitespace. -/
def isWsChar (c : Char) : Bool :=
  c.toNat = 32 || c.toNat = 9 || c.toNat = 10 || c.toNat = 13

/-- Skip insignificant whitespace between tokens. -/
def skipWs (cs : List Char) : List Char := List.dropWhile isWsChar cs

/-- Decimal digit test. -/
def isDigitChar (c : Char) : Bool := 48 ≤ c.toNat && c.toNat ≤ 57

/-- True when the input does not begin with a decimal digit, so a number
token just before it ends exactly there. -/
def numBoundary : List Char → Bool
  | [] => true
  | c :: _ => !(isDigitChar c)

/-- Value of a hexadecimal digit character. -/
def hexVal (c : Char) : Option Nat :=
  if 48 ≤ c.toNat ∧ c.toNat ≤ 57 then some (c.toNat - 48)
  else if 97 ≤ c.toNat ∧ c.toNat ≤ 102 then some (c.toNat - 87)
  else if 65 ≤ c.toNat ∧ c.toNat ≤ 70 then some (c.toNat - 55)
  else none

mutual

/-- Scan the body of a JSON string literal after its opening quote,
unescaping as `JSON.parse` does; returns the decoded characters and
the input remaining after the closing quote. -/
def parseStrChars : List Char → Option (List Char × List Char)
  | [] => none
  | c :: rest =>
    if c = Char.ofNat 34 then some ([], rest)
    else if c = Char.ofNat 92 then parseEsc rest
    else if c.toNat < 32 then none
    else (parseStrChars rest).map (fun p => (c :: p.1, p.2))

/-- Decode the character after a backslash inside a string literal and
continue scanning. -/
def parseEsc : List Char → Option (List Char × List Char)
  | [] => none
  | e :: rest1 =>
    if e = Char.ofNat 34 then
      (parseStrChars rest1).map (fun p => (Char.ofNat 34 :: p.1, p.2))
    else if e = Char.ofNat 92 then
      (parseStrChars rest1).map (fun p => (Char.ofNat 92 :: p.1, p.2))
    else if e = '/' then
      (parseStrChars rest1).map (fun p => ('/' :: p.1, p.2))
    else if e = 'b' then
      (parseStrChars rest1).map (fun p => (Char.ofNat 8 :: p.1, p.2))
    else if e = 'f' then
      (parseStrChars rest1).map (fun p => (Char.ofNat 12 :: p.1, p.2))
    else if e = 'n' then
      (parseStrChars rest1).map (fun p => (Char.ofNat 10 :: p.1, p.2))
    else if e = 'r' then
      (parseStrChars rest1).map (fun p => (Char.ofNat 13 :: p.1, p.2))
    else if e = 't' then
      (parseStrChars rest1).map (fun p => (Char.ofNat 9 :: p.1, p.2))
    else if e = 'u' then parseU rest1
    else none

/-- Decode a `u`-escape: four hexadecimal digits naming a code point. -/
def parseU : List Char → Option (List Char × List Char)
  | h1 :: h2 :: h3 :: h4 :: rest2 =>
      (match hexVal h1, hexVal h2, hexVal h3, hexVal h4 with
       | some a, some b, some c2, some d =>
           (parseStrChars rest2).map
             (fun p => (Char.ofNat (((a * 16 + b) * 16 + c2) * 16 + d) :: p.1, p.2))
       | _, _, _, _ => none)
  | _ => none

end

/-- Consume an expected literal run of characters, returning the rest
of the input. -/
def stripSeg : List Char → List Char → Option (List Char)
  | [], l => some l
  | _ :: _, [] => none
  | a :: as, b :: bs => if a = b then stripSeg as bs else none

/-- Accumulate decimal digits into a number. -/
def parseDigitsAux (acc : Nat) : List Char → Nat × List Char
  | [] => (acc, [])
  | c :: rest =>
      if isDigitChar c then parseDigitsAux (acc * 10 + (c.toNat - 48)) rest
      else (acc, c :: rest)

/-- Parse a nonempty run of decimal digits. -/
def parseNat : List Char → Option (Nat × List Char)
  | [] => none
  | c :: rest =>
      if isDigitChar c then some (parseDigitsAux (c.toNat - 48) rest)
      else none

mutual

/-- Recursive-descent model of `JSON.parse` on a single value, with
fuel bounding the nesting depth; whitespace before the value has
already been skipped. -/
def parseVal : Nat → List Char → Option (Json × List Char)
  | 0, _ => none
  | _ + 1, [] => none
  | fuel + 1, c :: rest =>
    if c = 'n' then
      match stripSeg ('u' :: 'l' :: 'l' :: []) rest with
      | some r => some (Json.null, r)
      | none => none
    else if c = 't' then
      match stripSeg ('r' :: 'u' :: 'e' :: []) rest with
      | some r => some (Json.bool true, r)
      | none => none
    else if c = 'f' then
      match stripSeg ('a' :: 'l' :: 's' :: 'e' :: []) rest with
      | some r => some (Json.bool false, r)
      | none => none
    else if c = '-' then
      match parseNat rest with
      | some (n, r) => some (Json.num (-(n : Int)), r)
      | none => none
    else if c = '[' then
      match skipWs rest with
      | [] => none
      | d :: r1 =>
        if d = ']' then some (Json.arr [], r1)
        else
          match parseVal fuel (d :: r1) with
          | some (x, r2) =>
            (match parseItems fuel (skipWs r2) with
             | some (xs, r3) => some (Json.arr (x :: xs), r3)
             | none => none)
          | none => none
    else if c = Char.ofNat 34 then
      match parseStrChars rest with
      | some (cs, r1) => some (Json.str (String.mk cs), r1)
      | none => none
    else if c = lbrace then
      match skipWs rest with
      | [] => none
      | d :: r1 =>
        if d = rbrace then some (Json.obj [], r1)
        else if d = Char.ofNat 34 then
          match parseStrChars r1 with
          | some (kcs, r2) =>
            (match skipWs r2 with
             | ':' :: r3 =>
               (match parseVal fuel (skipWs r3) with
                | some (v, r4) =>
                  (match parseFields fuel (skipWs r4) with
                   | some (fs, r5) =>
                       some (Json.obj ((String.mk kcs, v) :: fs), r5)
                   | none => none)
                | none => none)
             | _ => none)
          | none => none
        else none
    else
      match parseNat (c :: rest) with
      | some (n, r) => some (Json.num (n : Int), r)
      | none => none

/-- Remaining array elements: a close bracket ends the array, a comma
is followed by the next element. -/
def parseItems : Nat → List Char → Option (List Json × List Char)
  | 0, _ => none
  | _ + 1, [] => none
  | fuel + 1, c :: rest =>
    if c = ']' then some ([], rest)
    else if c = ',' then
      match parseVal fuel (skipWs rest) with
      | some (x, r1) =>
        (match parseItems fuel (skipWs r1) with
         | some (xs, r2) => some (x :: xs, r2)
         | none => none)
      | none => none
    else none

/-- Remaining object members: a close brace ends the object, a comma
is followed by the next `"key": value` member. -/
def parseFields : Nat → List Char → Option (List (String × Json) × List Char)
  | 0, _ => none
  | _ + 1, [] => none
  | fuel + 1, c :: rest =>
    if c = rbrace then some ([], rest)
    else if c = ',' then
      match skipWs rest with
      | [] => none
      | d :: r1 =>
        if d = Char.ofNat 34 then
          match parseStrChars r1 with
          | some (kcs, r2) =>
            (match skipWs r2 with
             | ':' :: r3 =>
               (match parseVal fuel (skipWs r3) with
                | some (v, r4) =>
                  (match parseFields fuel (skipWs r4) with
                   | some (fs, r5) => some ((String.mk kcs, v) :: fs, r5)
                   | none => none)
                | none => none)
             | _ => none)
          | none => none
        else none
    else none

end

/-- Model of `JSON.parse`: parse a complete JSON text, requiring only
whitespace after the value. -/
def parse (s : String) : Option Json :=
  match parseVal (s.data.length + 1) (skipWs s.data) with
  | some (j, rest) => if skipWs rest = [] then some j else none
  | none => none

mutual

/-- Nesting-size measure of a JSON value, used as parser fuel. -/
def jsize : Json → Nat
  | Json.null => 1
  | Json.bool _ => 1
  | Json.num _ => 1
  | Json.str _ => 1
  | Json.arr xs => 1 + lsize xs
  | Json.obj fs => 1 + fsize fs

/-- Measure of a list of array elements. -/
def lsize : List Json → Nat
  | [] => 1
  | x :: xs => 1 + jsize x + lsize xs

/-- Measure of a list of object members. -/
def fsize : List (String × Json) → Nat
  | [] => 1
  | f :: fs => 1 + jsize f.2 + fsize fs

end

/-! ## The server model, embedded from src/index.ts -/

/-- The fixed base URL of the remote elections API. -/
def BASE_URL : String := "https://api.danecounty.gov"

/-- A thrown JavaScript value: either an `Error` instance carrying its
message, or any other value (opaquely tagged). -/
inductive Thrown where
  | error (msg : String) : Thrown
  | other (tag : String) : Thrown
deriving Repr, DecidableEq

/-- The observable part of a fetch `Response`: the success flag, the
numeric status, the status text, and the outcome of `response.json()`
(which either yields a JSON value or throws). -/
structure HttpResponse where
  ok : Bool
  status : Nat
  statusText : String
  body : Except Thrown Json

/-- Outcome of the underlying `fetch` call: a settled response, or a
rejection with a thrown value (network/transport failure). -/
inductive FetchResult where
  | response (r : HttpResponse) : FetchResult
  | failure (e : Thrown) : FetchResult

/-- Environment oracle standing for the HTTP client: maps the request
URL and headers to the outcome of the fetch. -/
def FetchOracle : Type := String → List (String × String) → FetchResult

/-- The fixed headers sent on every request. -/
def requestHeaders : List (String × String) :=
  [("Accept", "application/json"),
   ("User-Agent", "dane-county-elections-mcp/1.0.0")]

/-- The catch clause of `makeApiRequest`: an `Error` instance is
rethrown with the normalized prefix, anything else is rethrown
unchanged. -/
def wrapFetchError : Thrown → Thrown
  | Thrown.error msg =>
      Thrown.error ("Failed to fetch from Dane County Elections API: " ++ msg)
  | e => e

/-- The message of the `Error` thrown on a non-success HTTP status. -/
def statusLine (status : Nat) (statusText : String) : String :=
  "API request failed: " ++ String.mk (natDigits status) ++ " " ++ statusText

/-- Model of `makeApiRequest`: build the URL, fetch with the fixed
headers, throw on a non-success status, decode the body as JSON;
every `Error` escaping the `try` block is rethrown with the
normalized message prefix, other thrown values unchanged. -/
def makeApiRequest (fetch : FetchOracle) (endpoint : String) : Except Thrown Json :=
  match fetch (BASE_URL ++ endpoint) requestHeaders with
  | FetchResult.failure e => Except.error (wrapFetchError e)
  | FetchResult.response r =>
    if !r.ok then
      Except.error (wrapFetchError (Thrown.error (statusLine r.status r.statusText)))
    else
      match r.body with
      | Except.error e => Except.error (wrapFetchError e)
      | Except.ok data => Except.ok data

/-- The argument fields read by the dispatcher; a call's arguments
object may carry either, both or neither of them. -/
structure Args where
  electionid : Option String := none
  racenumber : Option String := none
deriving Repr, DecidableEq

/-- JavaScript truthiness of an argument string: absent and empty are
falsy, every other string is truthy. -/
def truthy : Option String → Bool
  | none => false
  | some s => !(s = "")

/-- Model of `handleToolCall`: dispatch on the tool name, validate the
required arguments, build the endpoint path and call the gateway.
Returns the call outcome together with the list of endpoints passed to
`makeApiRequest`, so invocation counts are observable. -/
def handleToolCall (fetch : FetchOracle) (name : String) (args : Args) :
    Except Thrown Json × List String :=
  if name = "list_elections" then
    (makeApiRequest fetch "/api/v1/elections/list", ["/api/v1/elections/list"])
  else if name = "get_election" then
    if !(truthy args.electionid) then
      (Except.error (Thrown.error "electionid is required"), [])
    else
      let ep := "/api/v1/elections/election/" ++ args.electionid.getD ""
      (makeApiRequest fetch ep, [ep])
  else if name = "get_last_published" then
    if !(truthy args.electionid) then
      (Except.error (Thrown.error "electionid is required"), [])
    else
      let ep := "/api/v1/elections/lastpublished/" ++ args.electionid.getD ""
      (makeApiRequest fetch ep, [ep])
  else if name = "get_races" then
    if !(truthy args.electionid) then
      (Except.error (Thrown.error "electionid is required"), [])
    else
      let ep := "/api/v1/elections/races/" ++ args.electionid.getD ""
      (makeApiRequest fetch ep, [ep])
  else if name = "get_election_results" then
    if !(truthy args.electionid) then
      (Except.error (Thrown.error "electionid is required"), [])
    else
      let ep :=
        if truthy args.racenumber then
          "/api/v1/elections/electionresults/" ++ args.electionid.getD "" ++
            "/" ++ args.racenumber.getD ""
        else
          "/api/v1/elections/electionresults/" ++ args.electionid.getD ""
      (makeApiRequest fetch ep, [ep])
  else if name = "get_precinct_results" then
    if !(truthy args.electionid) || !(truthy args.racenumber) then
      (Except.error (Thrown.error "electionid and racenumber are required"), [])
    else
      let ep := "/api/v1/elections/precinctresults/" ++ args.electionid.getD "" ++
        "/" ++ args.racenumber.getD ""
      (makeApiRequest fetch ep, [ep])
  else
    (Except.error (Thrown.error ("Unknown tool: " ++ name)), [])

/-- One block of the response envelope. -/
structure ContentBlock where
  type : String
  text : String
deriving Repr, DecidableEq

/-- The response envelope returned to the host: content blocks plus the
error flag (absent on success, modelled as `false`). -/
structure ToolResponse where
  content : List ContentBlock
  isError : Bool
deriving Repr, DecidableEq

/-- The message extracted from a caught value at the dispatcher
boundary: the message of an `Error` instance, and a fixed fallback
text otherwise. -/
def thrownMessage : Thrown → String
  | Thrown.error msg => msg
  | Thrown.other _ => "Unknown error occurred"

/-- Model of the `CallToolRequestSchema` handler: substitute an empty
arguments object when none is given, run the dispatcher, and wrap the
outcome — pretty-printed JSON text on success, `Error: <message>` with
the error flag on any caught value.  The endpoint list is carried
through so gateway invocations stay observable. -/
def handleCallToolRequest (fetch : FetchOracle) (name : String) (args : Option Args) :
    ToolResponse × List String :=
  let out := handleToolCall fetch name (args.getD {})
  match out.1 with
  | Except.ok result =>
      ({ content := [{ type := "text", text := stringify result }],
         isError := false }, out.2)
  | Except.error e =>
      ({ content := [{ type := "text", text := "Error: " ++ thrownMessage e }],
         isError := true }, out.2)

/-- One declared parameter of a tool's input schema. -/
structure ParamSpec where
  name : String
  type : String
  description : String
deriving Repr, DecidableEq

/-- One operation descriptor of the registry. -/
structure Tool where
  name : String
  description : String
  properties : List ParamSpec
  required : List String
deriving Repr, DecidableEq

/-- The static tool registry `TOOLS`. -/
def TOOLS : List Tool :=
  [{ name := "list_elections",
     description := "Get a list of all available elections in Dane County",
     properties := [],
     required := [] },
   { name := "get_election",
     description := "Get detailed information about a specific election by its ID",
     properties := [{ name := "electionid", type := "string",
                      description := "The unique identifier for the election" }],
     required := ["electionid"] },
   { name := "get_last_published",
     description := "Get the last published timestamp for a specific election",
     properties := [{ name := "electionid", type := "string",
                      description := "The unique identifier for the election" }],
     required := ["electionid"] },
   { name := "get_races",
     description := "Get all races for a specific election",
     properties := [{ name := "electionid", type := "string",
                      description := "The unique identifier for the election" }],
     required := ["electionid"] },
   { name := "get_election_results",
     description := "Get results for all races in an election, or for a specific race if racenumber is provided",
     properties := [{ name := "electionid", type := "string",
                      description := "The unique identifier for the election" },
                    { name := "racenumber", type := "string",
                      description := "Optional: The race number to get specific race results" }],
     required := ["electionid"] },
   { name := "get_precinct_results",
     description := "Get precinct-level results for a specific race in an election",
     properties := [{ name := "electionid", type := "string",
                      description := "The unique identifier for the election" },
                    { name := "racenumber", type := "string",
                      description := "The race number to get precinct results for" }],
     required := ["electionid", "racenumber"] }]

/-- Model of the `ListToolsRequestSchema` handler: it ignores the
request (indexed here by an invocation number) and returns the static
registry. -/
def handleListToolsRequest (_ : Nat) : List Tool := TOOLS

/-- The six registered tool names, in registry order. -/
def toolNames : List String :=
  ["list_elections", "get_election", "get_last_published", "get_races",
   "get_election_results", "get_precinct_results"]

/-- Whether a character list contains `needle` as a leading run. -/
def startsSeg : List Char → List Char → Bool
  | [], _ => true
  | _ :: _, [] => false
  | a :: as, b :: bs => a = b && startsSeg as bs

/-- Whether a character list contains `needle` as a contiguous run. -/
def hasSeg (needle : List Char) : List Char → Bool
  | [] => startsSeg needle []
  | c :: rest => startsSeg needle (c :: rest) || hasSeg needle rest

/-- A fetch oracle whose every request rejects with a network `Error`. -/
def fetchFail : FetchOracle :=
  fun _ _ => FetchResult.failure (Thrown.error "network down")

/-- A fetch oracle answering every request with HTTP 200 and body `j`. -/
def fetchOk (j : Json) : FetchOracle :=
  fun _ _ => FetchResult.response
    { ok := true, status := 200, statusText := "OK", body := Except.ok j }

/-- A fetch oracle answering every request with HTTP 500. -/
def fetch500 : FetchOracle :=
  fun _ _ => FetchResult.response
    { ok := false, status := 500, statusText := "Internal Server Error",
      body := Except.ok Json.null }

/-- A fetch oracle rejecting with a thrown value that is not an `Error`
instance. -/
def fetchOther : FetchOracle :=
  fun _ _ => FetchResult.failure (Thrown.other "oops")

/-! ## Character and whitespace lemmas -/

theorem char_eq_iff {c d : Char} : c = d ↔ c.toNat = d.toNat :=
  ⟨fun h => by rw [h], fun h => Char.ext (UInt32.ext h)⟩

theorem isWsChar_false {c : Char}
    (h : c.toNat ≠ 32 ∧ c.toNat ≠ 9 ∧ c.toNat ≠ 10 ∧ c.toNat ≠ 13) :
    isWsChar c = false := by
  simp only [isWsChar, Bool.or_eq_false_iff, decide_eq_false_iff_not]
  omega

theorem skipWs_nil : skipWs [] = [] := rfl

theorem skipWs_cons_ws {c : Char} (h : isWsChar c = true) (l : List Char) :
    skipWs (c :: l) = skipWs l := by
  simp [skipWs, List.dropWhile, h]

theorem skipWs_cons_nws {c : Char} (h : isWsChar c = false) (l : List Char) :
    skipWs (c :: l) = c :: l := by
  simp [skipWs, List.dropWhile, h]

theorem skipWs_indent (n : Nat) (l : List Char) :
    skipWs (indentChars n ++ l) = skipWs l := by
  induction n with
  | zero => simp [indentChars]
  | succ m ih =>
      rw [indentChars, List.replicate_succ, List.cons_append,
        skipWs_cons_ws (by decide)]
      exact ih

theorem skipWs_nl (l : List Char) : skipWs (Char.ofNat 10 :: l) = skipWs l :=
  skipWs_cons_ws (by decide) l

/-! ## Decimal digit lemmas -/

theorem digitChar_toNat {d : Nat} (h : d < 10) : (digitChar d).toNat = 48 + d := by
  interval_cases d <;> rfl

theorem isDigitChar_digitChar {d : Nat} (h : d < 10) :
    isDigitChar (digitChar d) = true := by
  interval_cases d <;> rfl

theorem natDigitsF_of_le : ∀ (fuel fuel2 n : Nat), n ≤ fuel → n ≤ fuel2 →
    natDigitsF fuel n = natDigitsF fuel2 n := by
  intro fuel
  induction fuel using Nat.strong_induction_on with
  | _ fuel ih =>
    intro fuel2 n h1 h2
    match fuel, fuel2 with
    | 0, 0 => rfl
    | 0, f2 + 1 =>
      interval_cases n
      all_goals simp [natDigitsF]
    | f1 + 1, 0 =>
      interval_cases n
      all_goals simp [natDigitsF]
    | f1 + 1, f2 + 1 =>
      simp only [natDigitsF]
      by_cases hn : n < 10
      · simp [hn]
      · simp only [hn, if_false]
        rw [ih f1 (by omega) f2 (n / 10) (by omega) (by omega)]

theorem natDigits_small {n : Nat} (h : n < 10) : natDigits n = [digitChar n] := by
  unfold natDigits
  match n, h with
  | 0, _ => rfl
  | m + 1, h => simp [natDigitsF, h]

theorem natDigits_large {n : Nat} (h : ¬ n < 10) :
    natDigits n = natDigits (n / 10) ++ [digitChar (n % 10)] := by
  unfold natDigits
  match n, h with
  | m + 1, h =>
    simp only [natDigitsF, h, if_false]
    congr 1
    exact natDigitsF_of_le m ((m + 1) / 10) ((m + 1) / 10) (by omega) (by omega)

theorem natDigits_head (n : Nat) :
    ∃ c t, natDigits n = c :: t ∧ isDigitChar c = true := by
  induction n using Nat.strong_induction_on with
  | _ n ih =>
    by_cases h : n < 10
    · exact ⟨digitChar n, [], natDigits_small h, isDigitChar_digitChar h⟩
    · obtain ⟨c, t, he, hd⟩ := ih (n / 10) (Nat.div_lt_self (by omega) (by omega))
      exact ⟨c, t ++ [digitChar (n % 10)],
        by rw [natDigits_large h, he]; rfl, hd⟩

theorem parseDigitsAux_stop {acc : Nat} {l : List Char}
    (h : numBoundary l = true) : parseDigitsAux acc l = (acc, l) := by
  cases l with
  | nil => rfl
  | cons c t =>
      simp only [numBoundary, Bool.not_eq_true'] at h
      simp [parseDigitsAux, h]

theorem parseDigitsAux_natDigits (n : Nat) : ∀ (acc : Nat) (rest : List Char),
    parseDigitsAux acc (natDigits n ++ rest) =
    parseDigitsAux (acc * 10 ^ (natDigits n).length + n) rest := by
  induction n using Nat.strong_induction_on with
  | _ n ih =>
    intro acc rest
    by_cases h : n < 10
    · rw [natDigits_small h]
      simp only [List.cons_append, List.nil_append, parseDigitsAux,
        isDigitChar_digitChar h, if_true, digitChar_toNat h, List.length_cons,
        List.length_nil]
      congr 1
      simp [pow_one]
    · rw [natDigits_large h, List.append_assoc,
        ih (n / 10) (Nat.div_lt_self (by omega) (by omega))]
      have h10 : n % 10 < 10 := by omega
      simp only [List.cons_append, List.nil_append, parseDigitsAux,
        isDigitChar_digitChar h10, if_true, digitChar_toNat h10,
        List.length_append, List.length_cons, List.length_nil]
      congr 1
      have hpow : 10 ^ ((natDigits (n / 10)).length + (0 + 1)) =
          10 ^ (natDigits (n / 10)).length * 10 := by
        rw [Nat.zero_add, pow_succ]
      rw [hpow, Nat.add_mul, Nat.mul_assoc, Nat.add_assoc]
      congr 1
      omega

theorem parseNat_digitHead {c : Char} {l : List Char} (h : isDigitChar c = true) :
    parseNat (c :: l) = some (parseDigitsAux 0 (c :: l)) := by
  simp [parseNat, parseDigitsAux, h]

theorem parseNat_natDigits (n : Nat) {rest : List Char}
    (h : numBoundary rest = true) :
    parseNat (natDigits n ++ rest) = some (n, rest) := by
  obtain ⟨c, t, he, hd⟩ := natDigits_head n
  rw [he, List.cons_append, parseNat_digitHead hd, ← List.cons_append, ← he,
    parseDigitsAux_natDigits, Nat.zero_mul, Nat.zero_add, parseDigitsAux_stop h]

/-! ## String literal round-trip lemmas -/

theorem hexVal_hexDigitChar {a : Nat} (h : a < 16) :
    hexVal (hexDigitChar a) = some a := by
  interval_cases a <;> rfl

theorem parseStr_close (l : List Char) :
    parseStrChars (Char.ofNat 34 :: l) = some ([], l) := rfl

theorem parseStr_escQ (l : List Char) :
    parseStrChars (Char.ofNat 92 :: Char.ofNat 34 :: l) =
    (parseStrChars l).map (fun p => (Char.ofNat 34 :: p.1, p.2)) := rfl

theorem parseStr_escBack (l : List Char) :
    parseStrChars (Char.ofNat 92 :: Char.ofNat 92 :: l) =
    (parseStrChars l).map (fun p => (Char.ofNat 92 :: p.1, p.2)) := rfl

theorem parseStr_escBs (l : List Char) :
    parseStrChars (Char.ofNat 92 :: 'b' :: l) =
    (parseStrChars l).map (fun p => (Char.ofNat 8 :: p.1, p.2)) := rfl

theorem parseStr_escFf (l : List Char) :
    parseStrChars (Char.ofNat 92 :: 'f' :: l) =
    (parseStrChars l).map (fun p => (Char.ofNat 12 :: p.1, p.2)) := rfl

theorem parseStr_escNl (l : List Char) :
    parseStrChars (Char.ofNat 92 :: 'n' :: l) =
    (parseStrChars l).map (fun p => (Char.ofNat 10 :: p.1, p.2)) := rfl

theorem parseStr_escCr (l : List Char) :
    parseStrChars (Char.ofNat 92 :: 'r' :: l) =
    (parseStrChars l).map (fun p => (Char.ofNat 13 :: p.1, p.2)) := rfl

theorem parseStr_escTab (l : List Char) :
    parseStrChars (Char.ofNat 92 :: 't' :: l) =
    (parseStrChars l).map (fun p => (Char.ofNat 9 :: p.1, p.2)) := rfl

theorem parseStr_escU (h1 h2 h3 h4 : Char) (l : List Char) :
    parseStrChars (Char.ofNat 92 :: 'u' :: h1 :: h2 :: h3 :: h4 :: l) =
    match hexVal h1, hexVal h2, hexVal h3, hexVal h4 with
    | some a, some b, some c2, some d =>
        (parseStrChars l).map
          (fun p => (Char.ofNat (((a * 16 + b) * 16 + c2) * 16 + d) :: p.1, p.2))
    | _, _, _, _ => none := rfl

theorem parseStr_plain {c : Char} (h34 : ¬ c = Char.ofNat 34)
    (h92 : ¬ c = Char.ofNat 92) (hlt : ¬ c.toNat < 32) (l : List Char) :
    parseStrChars (c :: l) = (parseStrChars l).map (fun p => (c :: p.1, p.2)) := by
  simp only [parseStrChars]
  rw [if_neg h34, if_neg h92, if_neg hlt]

theorem parseStrChars_escChars (cs : List Char) : ∀ (rest : List Char),
    parseStrChars (escChars cs ++ (Char.ofNat 34 :: rest)) = some (cs, rest) := by
  induction cs with
  | nil =>
      intro rest
      rw [escChars, List.nil_append, parseStr_close]
  | cons c cs ih =>
      intro rest
      rw [escChars, List.append_assoc]
      by_cases h1 : c = Char.ofNat 34
      · subst h1
        rw [show escapeChar (Char.ofNat 34) = [Char.ofNat 92, Char.ofNat 34] from rfl]
        simp only [List.cons_append, List.nil_append]
        rw [parseStr_escQ, ih rest]
        rfl
      · by_cases h2 : c = Char.ofNat 92
        · subst h2
          rw [show escapeChar (Char.ofNat 92) = [Char.ofNat 92, Char.ofNat 92] from rfl]
          simp only [List.cons_append, List.nil_append]
          rw [parseStr_escBack, ih rest]
          rfl
        · by_cases h3 : c = Char.ofNat 8
          · subst h3
            rw [show escapeChar (Char.ofNat 8) = [Char.ofNat 92, 'b'] from rfl]
            simp only [List.cons_append, List.nil_append]
            rw [parseStr_escBs, ih rest]
            rfl
          · by_cases h4 : c = Char.ofNat 12
            · subst h4
              rw [show escapeChar (Char.ofNat 12) = [Char.ofNat 92, 'f'] from rfl]
              simp only [List.cons_append, List.nil_append]
              rw [parseStr_escFf, ih rest]
              rfl
            · by_cases h5 : c = Char.ofNat 10
              · subst h5
                rw [show escapeChar (Char.ofNat 10) = [Char.ofNat 92, 'n'] from rfl]
                simp only [List.cons_append, List.nil_append]
                rw [parseStr_escNl, ih rest]
                rfl
              · by_cases h6 : c = Char.ofNat 13
                · subst h6
                  rw [show escapeChar (Char.ofNat 13) = [Char.ofNat 92, 'r'] from rfl]
                  simp only [List.cons_append, List.nil_append]
                  rw [parseStr_escCr, ih rest]
                  rfl
                · by_cases h7 : c = Char.ofNat 9
                  · subst h7
                    rw [show escapeChar (Char.ofNat 9) = [Char.ofNat 92, 't'] from rfl]
                    simp only [List.cons_append, List.nil_append]
                    rw [parseStr_escTab, ih rest]
                    rfl
                  · by_cases h8 : c.toNat < 32
                    · rw [escapeChar, if_neg h1, if_neg h2, if_neg h3, if_neg h4,
                        if_neg h5, if_neg h6, if_neg h7, if_pos h8, hex4]
                      simp only [List.cons_append, List.nil_append]
                      rw [parseStr_escU,
                        hexVal_hexDigitChar (show c.toNat / 4096 % 16 < 16 by omega),
                        hexVal_hexDigitChar (show c.toNat / 256 % 16 < 16 by omega),
                        hexVal_hexDigitChar (show c.toNat / 16 % 16 < 16 by omega),
                        hexVal_hexDigitChar (show c.toNat % 16 < 16 by omega)]
                      have hval : ((c.toNat / 4096 % 16 * 16 + c.toNat / 256 % 16) * 16 +
                          c.toNat / 16 % 16) * 16 + c.toNat % 16 = c.toNat := by omega
                      simp only [hval, ih rest, Char.ofNat_toNat]
                      rfl
                    · rw [escapeChar, if_neg h1, if_neg h2, if_neg h3, if_neg h4,
                        if_neg h5, if_neg h6, if_neg h7, if_neg h8]
                      simp only [List.cons_append, List.nil_append]
                      rw [parseStr_plain h1 h2 h8, ih rest]
                      rfl

/-! ## Head and boundary lemmas for serialized output -/

theorem stripSeg_append (lit : List Char) : ∀ (l : List Char),
    stripSeg lit (lit ++ l) = some l := by
  induction lit with
  | nil => intro l; rfl
  | cons a as ih => intro l; simp [stripSeg, ih]

theorem char_ne_of_toNat {c : Char} {n : Nat} (h : c.toNat ≠ n) (d : Char)
    (hd : d.toNat = n) : c ≠ d :=
  fun he => h (by rw [he, hd])

theorem stringifyVal_head (ind : Nat) (j : Json) :
    ∃ c t, stringifyVal ind j = c :: t ∧ isWsChar c = false ∧ c ≠ ']' := by
  cases j with
  | null => exact ⟨'n', ['u', 'l', 'l'], by simp [stringifyVal], by decide, by decide⟩
  | bool b =>
      cases b with
      | true => exact ⟨'t', ['r', 'u', 'e'], by simp [stringifyVal], by decide, by decide⟩
      | false => exact ⟨'f', ['a', 'l', 's', 'e'], by simp [stringifyVal], by decide, by decide⟩
  | num n =>
      cases n with
      | ofNat m =>
          obtain ⟨c, t, he, hd⟩ := natDigits_head m
          simp only [isDigitChar, Bool.and_eq_true, decide_eq_true_eq] at hd
          refine ⟨c, t, by simp [stringifyVal, intDigits, he], isWsChar_false (by omega), ?_⟩
          exact char_ne_of_toNat (n := 93) (by omega) ']' rfl
      | negSucc m =>
          exact ⟨'-', natDigits (m + 1), by simp [stringifyVal, intDigits],
            by decide, by decide⟩
  | str s =>
      exact ⟨Char.ofNat 34, escChars s.data ++ [Char.ofNat 34],
        by simp [stringifyVal, quoteChars], by decide, by decide⟩
  | arr xs =>
      cases xs with
      | nil => exact ⟨'[', [']'], by simp [stringifyVal], by decide, by decide⟩
      | cons x xs =>
          exact ⟨'[', Char.ofNat 10 :: (indentChars (ind + 2) ++
            (stringifyVal (ind + 2) x ++ (stringifyItems (ind + 2) xs ++
              (Char.ofNat 10 :: (indentChars ind ++ [']']))))),
            by simp [stringifyVal], by decide, by decide⟩
  | obj fs =>
      cases fs with
      | nil => exact ⟨lbrace, [rbrace], by simp [stringifyVal], by decide, by decide⟩
      | cons f fs =>
          exact ⟨lbrace, Char.ofNat 10 :: (indentChars (ind + 2) ++
            (memberChars (ind + 2) f ++ (stringifyMembers (ind + 2) fs ++
              (Char.ofNat 10 :: (indentChars ind ++ [rbrace]))))),
            by simp [stringifyVal], by decide, by decide⟩

theorem skipWs_stringifyVal (ind : Nat) (j : Json) (rest : List Char) :
    skipWs (stringifyVal ind j ++ rest) = stringifyVal ind j ++ rest := by
  obtain ⟨c, t, he, hws, _⟩ := stringifyVal_head ind j
  rw [he, List.cons_append, skipWs_cons_nws hws]

theorem numBoundary_items (ind : Nat) (xs : List Json) (l : List Char) :
    numBoundary (stringifyItems ind xs ++ (Char.ofNat 10 :: l)) = true := by
  cases xs with
  | nil => rfl
  | cons x xs => simp [stringifyItems, numBoundary, isDigitChar]

theorem numBoundary_members (ind : Nat) (fs : List (String × Json)) (l : List Char) :
    numBoundary (stringifyMembers ind fs ++ (Char.ofNat 10 :: l)) = true := by
  cases fs with
  | nil => rfl
  | cons f fs => simp [stringifyMembers, numBoundary, isDigitChar]

theorem skipWs_run (ind : Nat) (l : List Char) :
    skipWs (Char.ofNat 10 :: (indentChars ind ++ l)) = skipWs l := by
  rw [skipWs_nl, skipWs_indent]

/-! ## The JSON round-trip -/

mutual

theorem parseVal_stringify (j : Json) (ind fuel : Nat) (rest : List Char)
    (hf : jsize j ≤ fuel) (hb : numBoundary rest = true) :
    parseVal fuel (stringifyVal ind j ++ rest) = some (j, rest) := by
  cases j with
  | null =>
      simp only [jsize] at hf
      obtain ⟨f, rfl⟩ : ∃ f, fuel = f + 1 := ⟨fuel - 1, by omega⟩
      simp [stringifyVal, parseVal, stripSeg]
  | bool b =>
      simp only [jsize] at hf
      obtain ⟨f, rfl⟩ : ∃ f, fuel = f + 1 := ⟨fuel - 1, by omega⟩
      cases b <;> simp [stringifyVal, parseVal, stripSeg]
  | num n =>
      simp only [jsize] at hf
      obtain ⟨f, rfl⟩ : ∃ f, fuel = f + 1 := ⟨fuel - 1, by omega⟩
      cases n with
      | ofNat m =>
          obtain ⟨c, t, he, hd⟩ := natDigits_head m
          have hd' := hd
          simp only [isDigitChar, Bool.and_eq_true, decide_eq_true_eq] at hd'
          have h1 : c ≠ 'n' := char_ne_of_toNat (n := 110) (by omega) 'n' rfl
          have h2 : c ≠ 't' := char_ne_of_toNat (n := 116) (by omega) 't' rfl
          have h3 : c ≠ 'f' := char_ne_of_toNat (n := 102) (by omega) 'f' rfl
          have h4 : c ≠ '-' := char_ne_of_toNat (n := 45) (by omega) '-' rfl
          have h5 : c ≠ '[' := char_ne_of_toNat (n := 91) (by omega) '[' rfl
          have h6 : c ≠ Char.ofNat 34 := char_ne_of_toNat (n := 34) (by omega) _ rfl
          have h7 : c ≠ lbrace := char_ne_of_toNat (n := 123) (by omega) _ rfl
          rw [show stringifyVal ind (Json.num (Int.ofNat m)) = natDigits m from by
            simp [stringifyVal, intDigits]]
          rw [he, List.cons_append]
          simp only [parseVal]
          rw [if_neg h1, if_neg h2, if_neg h3, if_neg h4, if_neg h5, if_neg h6,
            if_neg h7, ← List.cons_append, ← he, parseNat_natDigits m hb]
          rfl
      | negSucc m =>
          rw [show stringifyVal ind (Json.num (Int.negSucc m)) =
            '-' :: natDigits (m + 1) from by simp [stringifyVal, intDigits]]
          rw [List.cons_append]
          simp only [parseVal]
          rw [if_neg (by decide : ¬('-' : Char) = 'n'),
            if_neg (by decide : ¬('-' : Char) = 't'),
            if_neg (by decide : ¬('-' : Char) = 'f')]
          simp only [eq_self_iff_true, if_true]
          rw [parseNat_natDigits (m + 1) hb]
          have hneg : (-((m : Int) + 1)) = Int.negSucc m := by
            rw [Int.negSucc_eq]
          simp [hneg]
  | str s =>
      simp only [jsize] at hf
      obtain ⟨f, rfl⟩ : ∃ f, fuel = f + 1 := ⟨fuel - 1, by omega⟩
      rw [show stringifyVal ind (Json.str s) = quoteChars s.data from by
        simp [stringifyVal]]
      rw [quoteChars, List.cons_append, List.append_assoc, List.singleton_append]
      simp only [parseVal]
      rw [if_neg (by decide : ¬(Char.ofNat 34) = 'n'),
        if_neg (by decide : ¬(Char.ofNat 34) = 't'),
        if_neg (by decide : ¬(Char.ofNat 34) = 'f'),
        if_neg (by decide : ¬(Char.ofNat 34) = '-'),
        if_neg (by decide : ¬(Char.ofNat 34) = '[')]
      simp only [eq_self_iff_true, if_true]
      rw [parseStrChars_escChars]
  | arr xs =>
      cases xs with
      | nil =>
          simp only [jsize, lsize] at hf
          obtain ⟨f, rfl⟩ : ∃ f, fuel = f + 1 := ⟨fuel - 1, by omega⟩
          rw [show stringifyVal ind (Json.arr []) = ['[', ']'] from by
            simp [stringifyVal]]
          simp only [List.cons_append, List.nil_append]
          simp only [parseVal]
          rw [if_neg (by decide : ¬('[' : Char) = 'n'),
            if_neg (by decide : ¬('[' : Char) = 't'),
            if_neg (by decide : ¬('[' : Char) = 'f'),
            if_neg (by decide : ¬('[' : Char) = '-')]
          simp only [eq_self_iff_true, if_true]
          rw [skipWs_cons_nws (by decide)]
          simp
      | cons x xs =>
          simp only [jsize, lsize] at hf
          obtain ⟨f, rfl⟩ : ∃ f, fuel = f + 1 := ⟨fuel - 1, by omega⟩
          rw [show stringifyVal ind (Json.arr (x :: xs)) =
            '[' :: Char.ofNat 10 :: (indentChars (ind + 2) ++
              (stringifyVal (ind + 2) x ++ (stringifyItems (ind + 2) xs ++
                (Char.ofNat 10 :: (indentChars ind ++ [']']))))) from by
            simp [stringifyVal]]
          simp only [List.cons_append, List.append_assoc,
            List.singleton_append, List.nil_append]
          simp only [parseVal]
          rw [if_neg (by decide : ¬('[' : Char) = 'n'),
            if_neg (by decide : ¬('[' : Char) = 't'),
            if_neg (by decide : ¬('[' : Char) = 'f'),
            if_neg (by decide : ¬('[' : Char) = '-')]
          simp only [eq_self_iff_true, if_true]
          rw [skipWs_run]
          rw [skipWs_stringifyVal]
          obtain ⟨c, t, he, hws, hrb⟩ := stringifyVal_head (ind + 2) x
          rw [he, List.cons_append]
          simp only []
          rw [if_neg hrb]
          rw [← List.cons_append, ← he]
          rw [parseVal_stringify x (ind + 2) f
            (stringifyItems (ind + 2) xs ++
              (Char.ofNat 10 :: (indentChars ind ++ (']' :: rest))))
            (by omega) (numBoundary_items _ _ _)]
          simp only []
          rw [parseItems_stringify xs (ind + 2) ind f rest (by omega)]
  | obj fs =>
      cases fs with
      | nil =>
          simp only [jsize, fsize] at hf
          obtain ⟨f, rfl⟩ : ∃ f, fuel = f + 1 := ⟨fuel - 1, by omega⟩
          rw [show stringifyVal ind (Json.obj []) = [lbrace, rbrace] from by
            simp [stringifyVal]]
          simp only [List.cons_append, List.nil_append]
          simp only [parseVal]
          rw [if_neg (by decide : ¬lbrace = 'n'),
            if_neg (by decide : ¬lbrace = 't'),
            if_neg (by decide : ¬lbrace = 'f'),
            if_neg (by decide : ¬lbrace = '-'),
            if_neg (by decide : ¬lbrace = '['),
            if_neg (by decide : ¬lbrace = Char.ofNat 34)]
          simp only [eq_self_iff_true, if_true]
          rw [skipWs_cons_nws (by decide)]
          simp
      | cons kv fs =>
          obtain ⟨k, v⟩ := kv
          simp only [jsize, fsize] at hf
          obtain ⟨f, rfl⟩ : ∃ f, fuel = f + 1 := ⟨fuel - 1, by omega⟩
          rw [show stringifyVal ind (Json.obj ((k, v) :: fs)) =
            lbrace :: Char.ofNat 10 :: (indentChars (ind + 2) ++
              (memberChars (ind + 2) (k, v) ++ (stringifyMembers (ind + 2) fs ++
                (Char.ofNat 10 :: (indentChars ind ++ [rbrace]))))) from by
            simp [stringifyVal]]
          rw [memberChars, quoteChars]
          simp only [List.cons_append, List.append_assoc,
            List.singleton_append, List.nil_append]
          simp only [parseVal]
          rw [if_neg (by decide : ¬lbrace = 'n'),
            if_neg (by decide : ¬lbrace = 't'),
            if_neg (by decide : ¬lbrace = 'f'),
            if_neg (by decide : ¬lbrace = '-'),
            if_neg (by decide : ¬lbrace = '['),
            if_neg (by decide : ¬lbrace = Char.ofNat 34)]
          simp only [eq_self_iff_true, if_true]
          rw [skipWs_run, skipWs_cons_nws (by decide : isWsChar (Char.ofNat 34) = false)]
          simp only []
          rw [if_neg (by decide : ¬(Char.ofNat 34) = rbrace)]
          simp only [eq_self_iff_true, if_true]
          rw [parseStrChars_escChars]
          simp only [List.nil_append]
          rw [skipWs_cons_nws (by decide : isWsChar ':' = false)]
          simp only []
          rw [skipWs_cons_ws (by decide : isWsChar ' ' = true), skipWs_stringifyVal]
          rw [parseVal_stringify v (ind + 2) f
            (stringifyMembers (ind + 2) fs ++
              (Char.ofNat 10 :: (indentChars ind ++ (rbrace :: rest))))
            (by omega) (numBoundary_members _ _ _)]
          simp only []
          rw [parseFields_stringify fs (ind + 2) ind f rest (by omega)]

theorem parseItems_stringify (xs : List Json) (indI indC fuel : Nat)
    (rest : List Char) (hf : lsize xs ≤ fuel) :
    parseItems fuel (skipWs (stringifyItems indI xs ++
      (Char.ofNat 10 :: (indentChars indC ++ (']' :: rest))))) = some (xs, rest) := by
  cases xs with
  | nil =>
      simp only [lsize] at hf
      obtain ⟨f, rfl⟩ : ∃ f, fuel = f + 1 := ⟨fuel - 1, by omega⟩
      rw [show stringifyItems indI ([] : List Json) = [] from by simp [stringifyItems]]
      rw [List.nil_append, skipWs_run, skipWs_cons_nws (by decide : isWsChar ']' = false)]
      simp [parseItems]
  | cons y ys =>
      simp only [lsize] at hf
      obtain ⟨f, rfl⟩ : ∃ f, fuel = f + 1 := ⟨fuel - 1, by omega⟩
      rw [show stringifyItems indI (y :: ys) =
        ',' :: Char.ofNat 10 :: (indentChars indI ++
          (stringifyVal indI y ++ stringifyItems indI ys)) from by
        simp [stringifyItems]]
      simp only [List.cons_append, List.append_assoc]
      rw [skipWs_cons_nws (by decide : isWsChar ',' = false)]
      simp only [parseItems]
      rw [if_neg (by decide : ¬(',' : Char) = ']')]
      simp only [eq_self_iff_true, if_true]
      rw [skipWs_run, skipWs_stringifyVal]
      rw [parseVal_stringify y indI f
        (stringifyItems indI ys ++
          (Char.ofNat 10 :: (indentChars indC ++ (']' :: rest))))
        (by omega) (numBoundary_items _ _ _)]
      simp only []
      rw [parseItems_stringify ys indI indC f rest (by omega)]

theorem parseFields_stringify (fs : List (String × Json)) (indI indC fuel : Nat)
    (rest : List Char) (hf : fsize fs ≤ fuel) :
    parseFields fuel (skipWs (stringifyMembers indI fs ++
      (Char.ofNat 10 :: (indentChars indC ++ (rbrace :: rest))))) = some (fs, rest) := by
  cases fs with
  | nil =>
      simp only [fsize] at hf
      obtain ⟨f, rfl⟩ : ∃ f, fuel = f + 1 := ⟨fuel - 1, by omega⟩
      rw [show stringifyMembers indI ([] : List (String × Json)) = [] from by
        simp [stringifyMembers]]
      rw [List.nil_append, skipWs_run, skipWs_cons_nws (by decide : isWsChar rbrace = false)]
      simp [parseFields]
  | cons kv fs =>
      obtain ⟨k, v⟩ := kv
      simp only [fsize] at hf
      obtain ⟨f, rfl⟩ : ∃ f, fuel = f + 1 := ⟨fuel - 1, by omega⟩
      rw [show stringifyMembers indI ((k, v) :: fs) =
        ',' :: Char.ofNat 10 :: (indentChars indI ++
          (memberChars indI (k, v) ++ stringifyMembers indI fs)) from by
        simp [stringifyMembers]]
      rw [memberChars, quoteChars]
      simp only [List.cons_append, List.append_assoc, List.singleton_append,
        List.nil_append]
      rw [skipWs_cons_nws (by decide : isWsChar ',' = false)]
      simp only [parseFields]
      rw [if_neg (by decide : ¬(',' : Char) = rbrace)]
      simp only [eq_self_iff_true, if_true]
      rw [skipWs_run, skipWs_cons_nws (by decide : isWsChar (Char.ofNat 34) = false)]
      simp only [eq_self_iff_true, if_true]
      rw [parseStrChars_escChars]
      simp only [List.nil_append]
      rw [skipWs_cons_nws (by decide : isWsChar ':' = false)]
      simp only []
      rw [skipWs_cons_ws (by decide : isWsChar ' ' = true), skipWs_stringifyVal]
      rw [parseVal_stringify v indI f
        (stringifyMembers indI fs ++
          (Char.ofNat 10 :: (indentChars indC ++ (rbrace :: rest))))
        (by omega) (numBoundary_members _ _ _)]
      simp only []
      rw [parseFields_stringify fs indI indC f rest (by omega)]

end

mutual

theorem jsize_le_stringify (j : Json) (ind : Nat) :
    jsize j ≤ (stringifyVal ind j).length + 1 := by
  cases j with
  | null => simp [jsize, stringifyVal]
  | bool b => cases b <;> simp [jsize, stringifyVal]
  | num n => simp [jsize]
  | str s => simp [jsize]
  | arr xs =>
      cases xs with
      | nil => simp [jsize, lsize, stringifyVal]
      | cons x xs =>
          have h1 := jsize_le_stringify x (ind + 2)
          have h2 := lsize_le_stringify xs (ind + 2)
          simp only [jsize, lsize, stringifyVal, List.length_cons,
            List.length_append, indentChars, List.length_replicate] at *
          omega
  | obj fs =>
      cases fs with
      | nil => simp [jsize, fsize, stringifyVal]
      | cons kv fs =>
          obtain ⟨k, v⟩ := kv
          have h1 := jsize_le_stringify v (ind + 2)
          have h2 := fsize_le_stringify fs (ind + 2)
          simp only [jsize, fsize, stringifyVal, memberChars, quoteChars,
            List.length_cons, List.length_append, indentChars,
            List.length_replicate] at *
          omega

theorem lsize_le_stringify (xs : List Json) (ind : Nat) :
    lsize xs ≤ (stringifyItems ind xs).length + 1 := by
  cases xs with
  | nil => simp [lsize, stringifyItems]
  | cons x xs =>
      have h1 := jsize_le_stringify x ind
      have h2 := lsize_le_stringify xs ind
      simp only [lsize, stringifyItems, List.length_cons, List.length_append,
        indentChars, List.length_replicate] at *
      omega

theorem fsize_le_stringify (fs : List (String × Json)) (ind : Nat) :
    fsize fs ≤ (stringifyMembers ind fs).length + 1 := by
  cases fs with
  | nil => simp [fsize, stringifyMembers]
  | cons kv fs =>
      obtain ⟨k, v⟩ := kv
      have h1 := jsize_le_stringify v ind
      have h2 := fsize_le_stringify fs ind
      simp only [fsize, stringifyMembers, memberChars, quoteChars,
        List.length_cons, List.length_append, indentChars,
        List.length_replicate] at *
      omega

end

/-- The round-trip: parsing the pretty-printed serialization of any JSON
value yields that value back. -/
theorem parse_stringify (j : Json) : parse (stringify j) = some j := by
  have hdata : (stringify j).data = stringifyVal 0 j := rfl
  have hskip : skipWs (stringifyVal 0 j) = stringifyVal 0 j := by
    have h := skipWs_stringifyVal 0 j []
    rwa [List.append_nil] at h
  have hval : parseVal ((stringifyVal 0 j).length + 1) (stringifyVal 0 j) =
      some (j, []) := by
    have h := parseVal_stringify j 0 ((stringifyVal 0 j).length + 1) []
      (le_trans (jsize_le_stringify j 0) (by omega)) rfl
    rwa [List.append_nil] at h
  unfold parse
  rw [hdata, hskip, hval]
  rfl

/-! ## Substring lemmas -/

theorem startsSeg_append (a : List Char) : ∀ (b : List Char),
    startsSeg a (a ++ b) = true := by
  induction a with
  | nil => intro b; rfl
  | cons c cs ih => intro b; simp [startsSeg, ih]

theorem hasSeg_of_starts {n l : List Char} (h : startsSeg n l = true) :
    hasSeg n l = true := by
  cases l with
  | nil => exact h
  | cons c rest => simp [hasSeg, h]

theorem hasSeg_cons {n : List Char} (c : Char) {l : List Char}
    (h : hasSeg n l = true) : hasSeg n (c :: l) = true := by
  simp [hasSeg, h]

theorem hasSeg_append_left {n : List Char} (pre : List Char) {l : List Char}
    (h : hasSeg n l = true) : hasSeg n (pre ++ l) = true := by
  induction pre with
  | nil => exact h
  | cons c cs ih => exact hasSeg_cons c ih

theorem hasSeg_self_append (n b : List Char) : hasSeg n (n ++ b) = true :=
  hasSeg_of_starts (startsSeg_append n b)

theorem hasSeg_self (n : List Char) : hasSeg n n = true := by
  have h := hasSeg_self_append n []
  rwa [List.append_nil] at h

theorem string_mk_data (l : List Char) : (String.mk l).data = l := rfl

/-! ## Dispatcher envelope lemmas -/

theorem handleCallToolRequest_snd (fetch : FetchOracle) (name : String)
    (args : Option Args) :
    (handleCallToolRequest fetch name args).2 =
    (handleToolCall fetch name (args.getD {})).2 := by
  unfold handleCallToolRequest
  cases h : (handleToolCall fetch name (args.getD {})).1 with
  | ok j => simp [h]
  | error e => simp [h]

/-! ## The claims -/

/-- Claim C1: for every one of the six operations, calling the dispatcher
with all required arguments present and non-empty builds exactly the
relative path of the per-operation path table and invokes the API
gateway exactly once with that path. -/
theorem C1_operation_paths (fetch : FetchOracle) (eid rn : String) (a : Args)
    (he : eid ≠ "") (hr : rn ≠ "") :
    handleToolCall fetch "list_elections" a =
      (makeApiRequest fetch "/api/v1/elections/list",
       ["/api/v1/elections/list"]) ∧
    handleToolCall fetch "get_election"
        { electionid := some eid, racenumber := a.racenumber } =
      (makeApiRequest fetch ("/api/v1/elections/election/" ++ eid),
       ["/api/v1/elections/election/" ++ eid]) ∧
    handleToolCall fetch "get_last_published"
        { electionid := some eid, racenumber := a.racenumber } =
      (makeApiRequest fetch ("/api/v1/elections/lastpublished/" ++ eid),
       ["/api/v1/elections/lastpublished/" ++ eid]) ∧
    handleToolCall fetch "get_races"
        { electionid := some eid, racenumber := a.racenumber } =
      (makeApiRequest fetch ("/api/v1/elections/races/" ++ eid),
       ["/api/v1/elections/races/" ++ eid]) ∧
    handleToolCall fetch "get_election_results"
        { electionid := some eid, racenumber := some rn } =
      (makeApiRequest fetch ("/api/v1/elections/electionresults/" ++ eid ++ "/" ++ rn),
       ["/api/v1/elections/electionresults/" ++ eid ++ "/" ++ rn]) ∧
    handleToolCall fetch "get_election_results"
        { electionid := some eid, racenumber := none } =
      (makeApiRequest fetch ("/api/v1/elections/electionresults/" ++ eid),
       ["/api/v1/elections/electionresults/" ++ eid]) ∧
    handleToolCall fetch "get_precinct_results"
        { electionid := some eid, racenumber := some rn } =
      (makeApiRequest fetch ("/api/v1/elections/precinctresults/" ++ eid ++ "/" ++ rn),
       ["/api/v1/elections/precinctresults/" ++ eid ++ "/" ++ rn]) := by
  refine ⟨rfl, ?_, ?_, ?_, ?_, ?_, ?_⟩ <;>
    simp [handleToolCall, truthy, he, hr]

/-- Witness for C1 at concrete inputs. -/
theorem C1_operation_paths_witness :
    handleToolCall fetchFail "get_election"
        { electionid := some "2024-general", racenumber := none } =
      (makeApiRequest fetchFail "/api/v1/elections/election/2024-general",
       ["/api/v1/elections/election/2024-general"]) :=
  (C1_operation_paths fetchFail "2024-general" "5" {} (by decide) (by decide)).2.1

/-- Claim C2: for every operation that declares required arguments,
a missing or empty required argument makes the dispatcher fail with a
validation error naming the missing parameter(s), and the gateway is
invoked zero times. -/
theorem C2_validation (fetch : FetchOracle) (a : Args) :
    (truthy a.electionid = false →
      handleToolCall fetch "get_election" a =
        (Except.error (Thrown.error "electionid is required"), []) ∧
      handleToolCall fetch "get_last_published" a =
        (Except.error (Thrown.error "electionid is required"), []) ∧
      handleToolCall fetch "get_races" a =
        (Except.error (Thrown.error "electionid is required"), []) ∧
      handleToolCall fetch "get_election_results" a =
        (Except.error (Thrown.error "electionid is required"), [])) ∧
    ((truthy a.electionid = false ∨ truthy a.racenumber = false) →
      handleToolCall fetch "get_precinct_results" a =
        (Except.error (Thrown.error "electionid and racenumber are required"), [])) ∧
    hasSeg "electionid".data "electionid is required".data = true ∧
    hasSeg "electionid".data "electionid and racenumber are required".data = true ∧
    hasSeg "racenumber".data "electionid and racenumber are required".data = true := by
  refine ⟨?_, ?_, by decide, by decide, by decide⟩
  · intro h
    refine ⟨?_, ?_, ?_, ?_⟩ <;> simp [handleToolCall, h]
  · intro h
    cases h with
    | inl h => simp [handleToolCall, h]
    | inr h => simp [handleToolCall, h]

/-- Witness for C2 at concrete inputs. -/
theorem C2_validation_witness :
    handleToolCall fetchFail "get_election" { electionid := some "" } =
      (Except.error (Thrown.error "electionid is required"), []) ∧
    handleToolCall fetchFail "get_precinct_results"
        { electionid := some "2024-general" } =
      (Except.error (Thrown.error "electionid and racenumber are required"), []) :=
  ⟨((C2_validation fetchFail { electionid := some "" }).1 (by decide)).1,
   (C2_validation fetchFail { electionid := some "2024-general" }).2.1
     (Or.inr (by decide))⟩

/-- Claim C3: for get_election_results with a non-empty electionid, the
race segment is appended exactly when racenumber is provided and
non-empty. -/
theorem C3_results_race (fetch : FetchOracle) (eid : String) (rn : Option String)
    (he : eid ≠ "") :
    (truthy rn = true →
      handleToolCall fetch "get_election_results"
          { electionid := some eid, racenumber := rn } =
        (makeApiRequest fetch
          ("/api/v1/elections/electionresults/" ++ eid ++ "/" ++ rn.getD ""),
         ["/api/v1/elections/electionresults/" ++ eid ++ "/" ++ rn.getD ""])) ∧
    (truthy rn = false →
      handleToolCall fetch "get_election_results"
          { electionid := some eid, racenumber := rn } =
        (makeApiRequest fetch ("/api/v1/elections/electionresults/" ++ eid),
         ["/api/v1/elections/electionresults/" ++ eid])) := by
  have ht : truthy (some eid) = true := by simp [truthy, he]
  constructor
  · intro h; simp [handleToolCall, ht, h]
  · intro h; simp [handleToolCall, ht, h]

/-- Witness for C3 at the spec's example inputs. -/
theorem C3_results_race_witness :
    handleToolCall fetchFail "get_election_results"
        { electionid := some "2024-general", racenumber := some "5" } =
      (makeApiRequest fetchFail "/api/v1/elections/electionresults/2024-general/5",
       ["/api/v1/elections/electionresults/2024-general/5"]) ∧
    handleToolCall fetchFail "get_election_results"
        { electionid := some "2024-general", racenumber := none } =
      (makeApiRequest fetchFail "/api/v1/elections/electionresults/2024-general",
       ["/api/v1/elections/electionresults/2024-general"]) :=
  ⟨(C3_results_race fetchFail "2024-general" (some "5") (by decide)).1 (by decide),
   (C3_results_race fetchFail "2024-general" none (by decide)).2 rfl⟩

/-- Claim C4: every failure inside the API gateway that surfaces as an
`Error` instance is rethrown with message exactly
`Failed to fetch from Dane County Elections API: <detail>`; a non-success
HTTP status produces, under that prefix, a message containing the numeric
status and the status text; a thrown value that is not an `Error`
instance is rethrown unchanged. -/
theorem C4_gateway_errors (fetch : FetchOracle) (endpoint : String) :
    (∀ msg, fetch (BASE_URL ++ endpoint) requestHeaders =
        FetchResult.failure (Thrown.error msg) →
      makeApiRequest fetch endpoint = Except.error (Thrown.error
        ("Failed to fetch from Dane County Elections API: " ++ msg))) ∧
    (∀ t, fetch (BASE_URL ++ endpoint) requestHeaders =
        FetchResult.failure (Thrown.other t) →
      makeApiRequest fetch endpoint = Except.error (Thrown.other t)) ∧
    (∀ r, fetch (BASE_URL ++ endpoint) requestHeaders = FetchResult.response r →
      r.ok = false →
      makeApiRequest fetch endpoint = Except.error (Thrown.error
        ("Failed to fetch from Dane County Elections API: " ++
          statusLine r.status r.statusText)) ∧
      startsSeg "Failed to fetch from Dane County Elections API: ".data
        ("Failed to fetch from Dane County Elections API: " ++
          statusLine r.status r.statusText).data = true ∧
      hasSeg (natDigits r.status)
        ("Failed to fetch from Dane County Elections API: " ++
          statusLine r.status r.statusText).data = true ∧
      hasSeg r.statusText.data
        ("Failed to fetch from Dane County Elections API: " ++
          statusLine r.status r.statusText).data = true) ∧
    (∀ r msg, fetch (BASE_URL ++ endpoint) requestHeaders = FetchResult.response r →
      r.ok = true → r.body = Except.error (Thrown.error msg) →
      makeApiRequest fetch endpoint = Except.error (Thrown.error
        ("Failed to fetch from Dane County Elections API: " ++ msg))) ∧
    (∀ r t, fetch (BASE_URL ++ endpoint) requestHeaders = FetchResult.response r →
      r.ok = true → r.body = Except.error (Thrown.other t) →
      makeApiRequest fetch endpoint = Except.error (Thrown.other t)) := by
  refine ⟨?_, ?_, ?_, ?_, ?_⟩
  · intro msg h
    simp [makeApiRequest, h, wrapFetchError]
  · intro t h
    simp [makeApiRequest, h, wrapFetchError]
  · intro r h hok
    have hmsg : ("Failed to fetch from Dane County Elections API: " ++
        statusLine r.status r.statusText).data =
        "Failed to fetch from Dane County Elections API: ".data ++
        ("API request failed: ".data ++ (natDigits r.status ++
          (" ".data ++ r.statusText.data))) := by
      simp [statusLine, String.data_append, string_mk_data, List.append_assoc]
    refine ⟨by simp [makeApiRequest, h, hok, wrapFetchError], ?_, ?_, ?_⟩
    · rw [hmsg]
      exact startsSeg_append _ _
    · rw [hmsg]
      exact hasSeg_append_left _ (hasSeg_append_left _ (hasSeg_self_append _ _))
    · rw [hmsg]
      exact hasSeg_append_left _ (hasSeg_append_left _ (hasSeg_append_left _
        (hasSeg_append_left _ (hasSeg_self _))))
  · intro r msg h hok hbody
    simp [makeApiRequest, h, hok, hbody, wrapFetchError]
  · intro r t h hok hbody
    simp [makeApiRequest, h, hok, hbody, wrapFetchError]

/-- Witness for C4: a simulated HTTP 500 response. -/
theorem C4_gateway_errors_witness :
    makeApiRequest fetch500 "/api/v1/elections/list" = Except.error (Thrown.error
      ("Failed to fetch from Dane County Elections API: " ++
        statusLine 500 "Internal Server Error")) ∧
    hasSeg (natDigits 500)
      ("Failed to fetch from Dane County Elections API: " ++
        statusLine 500 "Internal Server Error").data = true ∧
    hasSeg ("Internal Server Error" : String).data
      ("Failed to fetch from Dane County Elections API: " ++
        statusLine 500 "Internal Server Error").data = true :=
  have h := (C4_gateway_errors fetch500 "/api/v1/elections/list").2.2.1
    { ok := false, status := 500, statusText := "Internal Server Error",
      body := Except.ok Json.null } rfl rfl
  ⟨h.1, h.2.2.1, h.2.2.2⟩

/-- Claim C5: calling the dispatcher with an operation name not among the
six registered names yields an envelope with text exactly
`Error: Unknown tool: <name>`, the error flag set, and zero gateway
invocations. -/
theorem C5_unknown_tool (fetch : FetchOracle) (name : String) (args : Option Args)
    (h : ¬ name ∈ toolNames) :
    handleCallToolRequest fetch name args =
      ({ content := [{ type := "text", text := "Error: " ++ ("Unknown tool: " ++ name) }],
         isError := true }, []) := by
  simp only [toolNames, List.mem_cons, List.not_mem_nil, or_false, not_or] at h
  obtain ⟨h1, h2, h3, h4, h5, h6⟩ := h
  have htc : handleToolCall fetch name (args.getD {}) =
      (Except.error (Thrown.error ("Unknown tool: " ++ name)), []) := by
    simp [handleToolCall, h1, h2, h3, h4, h5, h6]
  unfold handleCallToolRequest
  rw [htc]
  rfl

/-- Witness for C5 at the spec's example name. -/
theorem C5_unknown_tool_witness :
    handleCallToolRequest fetchFail "delete_election" none =
      ({ content := [{ type := "text", text := "Error: Unknown tool: delete_election" }],
         isError := true }, []) :=
  C5_unknown_tool fetchFail "delete_election" none (by decide)

/-- Claim C6: every successful dispatch wraps the gateway result as a
single text content block holding its pretty-printed JSON, and parsing
that text back yields the gateway result (round-trip). -/
theorem C6_success_roundtrip (fetch : FetchOracle) (name : String)
    (args : Option Args) (result : Json)
    (h : (handleToolCall fetch name (args.getD {})).1 = Except.ok result) :
    (handleCallToolRequest fetch name args).1 =
      { content := [{ type := "text", text := stringify result }],
        isError := false } ∧
    parse ((handleCallToolRequest fetch name args).1.content.map
      ContentBlock.text).headI = some result := by
  have henv : (handleCallToolRequest fetch name args).1 =
      { content := [{ type := "text", text := stringify result }],
        isError := false } := by
    unfold handleCallToolRequest
    simp only [h]
  refine ⟨henv, ?_⟩
  rw [henv]
  simp only [List.map_cons, List.map_nil, List.headI]
  exact parse_stringify result

/-- Witness for C6: an HTTP 200 response with body the spec's example
object round-trips. -/
theorem C6_success_roundtrip_witness :
    (handleCallToolRequest (fetchOk (Json.obj [("elections", Json.arr [])]))
        "list_elections" none).1 =
      { content := [{ type := "text"
                      , text := stringify (Json.obj [("elections", Json.arr [])]) }],
        isError := false } ∧
    parse ((handleCallToolRequest (fetchOk (Json.obj [("elections", Json.arr [])]))
        "list_elections" none).1.content.map ContentBlock.text).headI =
      some (Json.obj [("elections", Json.arr [])]) :=
  C6_success_roundtrip (fetchOk (Json.obj [("elections", Json.arr [])]))
    "list_elections" none (Json.obj [("elections", Json.arr [])]) rfl

/-- Claim C7: every error arising during a tool call is caught at the
dispatcher boundary and returned as a normal envelope with a single
text block `Error: <message>` and the error flag set; every call,
error or not, yields a well-formed single-text-block envelope, so no
error escapes as a protocol fault. -/
theorem C7_error_envelope (fetch : FetchOracle) (name : String)
    (args : Option Args) :
    (∀ e, (handleToolCall fetch name (args.getD {})).1 = Except.error e →
      (handleCallToolRequest fetch name args).1 =
        { content := [{ type := "text", text := "Error: " ++ thrownMessage e }],
          isError := true }) ∧
    (∃ t, (handleCallToolRequest fetch name args).1.content =
      [{ type := "text", text := t }]) := by
  constructor
  · intro e he
    unfold handleCallToolRequest
    simp only [he]
  · cases h : (handleToolCall fetch name (args.getD {})).1 with
    | ok j =>
        refine ⟨stringify j, ?_⟩
        unfold handleCallToolRequest
        simp only [h]
    | error e =>
        refine ⟨"Error: " ++ thrownMessage e, ?_⟩
        unfold handleCallToolRequest
        simp only [h]

/-- Witness for C7 at a concrete failing call. -/
theorem C7_error_envelope_witness :
    (handleCallToolRequest fetchFail "list_elections" none).1 =
      { content := [{ type := "text"
                      , text := "Error: Failed to fetch from Dane County Elections API: network down" }],
        isError := true } :=
  (C7_error_envelope fetchFail "list_elections" none).1
    (Thrown.error "Failed to fetch from Dane County Elections API: network down") rfl

/-- Claim C8: the list-tools request always returns exactly the six
operation descriptors with the declared names and required-parameter
sets, identically on every invocation, with no duplicate name. -/
theorem C8_registry :
    (∀ i j : Nat, handleListToolsRequest i = handleListToolsRequest j) ∧
    handleListToolsRequest 0 = TOOLS ∧
    TOOLS.length = 6 ∧
    TOOLS.map Tool.name = toolNames ∧
    (TOOLS.map Tool.name).Nodup ∧
    TOOLS.map (fun t => (t.name, t.required)) =
      [("list_elections", []), ("get_election", ["electionid"]),
       ("get_last_published", ["electionid"]), ("get_races", ["electionid"]),
       ("get_election_results", ["electionid"]),
       ("get_precinct_results", ["electionid", "racenumber"])] :=
  ⟨fun _ _ => rfl, rfl, rfl, rfl, by decide, rfl⟩

/-- Witness for C8 at two concrete invocations. -/
theorem C8_registry_witness :
    handleListToolsRequest 0 = handleListToolsRequest 1 :=
  C8_registry.1 0 1

theorem no_query_append {s : String} (lit : String) (hlit : ¬ '?' ∈ lit.data)
    (h : ¬ '?' ∈ s.data) : ¬ '?' ∈ (lit ++ s).data := by
  intro hq
  rw [String.data_append] at hq
  rcases List.mem_append.mp hq with h1 | h1
  · exact hlit h1
  · exact h h1

/-- Claim C9: every relative path handed to the API gateway by the
dispatcher is free of a query component: as long as the interpolated
argument strings themselves contain no question mark (nothing is
escaped), no built path contains one — all variability sits in path
segments. -/
theorem C9_no_query (fetch : FetchOracle) (name : String) (a : Args) (ep : String)
    (hmem : ep ∈ (handleToolCall fetch name a).2)
    (he : ¬ '?' ∈ (a.electionid.getD "").data)
    (hr : ¬ '?' ∈ (a.racenumber.getD "").data) :
    ¬ '?' ∈ ep.data := by
  unfold handleToolCall at hmem
  by_cases h1 : name = "list_elections"
  · rw [if_pos h1] at hmem
    simp only [List.mem_singleton] at hmem
    subst hmem
    decide
  rw [if_neg h1] at hmem
  by_cases h2 : name = "get_election"
  · rw [if_pos h2] at hmem
    rcases hb : truthy a.electionid with _ | _
    · rw [if_pos (by rw [hb]; rfl)] at hmem
      exact absurd hmem (List.not_mem_nil ep)
    · rw [if_neg (by rw [hb]; decide)] at hmem
      simp only [List.mem_singleton] at hmem
      subst hmem
      exact no_query_append _ (by decide) he
  rw [if_neg h2] at hmem
  by_cases h3 : name = "get_last_published"
  · rw [if_pos h3] at hmem
    rcases hb : truthy a.electionid with _ | _
    · rw [if_pos (by rw [hb]; rfl)] at hmem
      exact absurd hmem (List.not_mem_nil ep)
    · rw [if_neg (by rw [hb]; decide)] at hmem
      simp only [List.mem_singleton] at hmem
      subst hmem
      exact no_query_append _ (by decide) he
  rw [if_neg h3] at hmem
  by_cases h4 : name = "get_races"
  · rw [if_pos h4] at hmem
    rcases hb : truthy a.electionid with _ | _
    · rw [if_pos (by rw [hb]; rfl)] at hmem
      exact absurd hmem (List.not_mem_nil ep)
    · rw [if_neg (by rw [hb]; decide)] at hmem
      simp only [List.mem_singleton] at hmem
      subst hmem
      exact no_query_append _ (by decide) he
  rw [if_neg h4] at hmem
  by_cases h5 : name = "get_election_results"
  · rw [if_pos h5] at hmem
    rcases hb : truthy a.electionid with _ | _
    · rw [if_pos (by rw [hb]; rfl)] at hmem
      exact absurd hmem (List.not_mem_nil ep)
    · rw [if_neg (by rw [hb]; decide)] at hmem
      simp only [List.mem_singleton] at hmem
      rcases hbr : truthy a.racenumber with _ | _
      · rw [if_neg (by rw [hbr]; decide)] at hmem
        subst hmem
        exact no_query_append _ (by decide) he
      · rw [if_pos hbr] at hmem
        subst hmem
        exact no_query_append _ (no_query_append _ (no_query_append _
          (by decide) he) (by decide)) hr
  rw [if_neg h5] at hmem
  by_cases h6 : name = "get_precinct_results"
  · rw [if_pos h6] at hmem
    rcases hb : truthy a.electionid with _ | _
    · rw [if_pos (by rw [hb]; rfl)] at hmem
      exact absurd hmem (List.not_mem_nil ep)
    · rcases hbr : truthy a.racenumber with _ | _
      · rw [if_pos (by rw [hb, hbr]; rfl)] at hmem
        exact absurd hmem (List.not_mem_nil ep)
      · rw [if_neg (by rw [hb, hbr]; decide)] at hmem
        simp only [List.mem_singleton] at hmem
        subst hmem
        exact no_query_append _ (no_query_append _ (no_query_append _
          (by decide) he) (by decide)) hr
  rw [if_neg h6] at hmem
  exact absurd hmem (List.not_mem_nil ep)

/-- Witness for C9 at a concrete call. -/
theorem C9_no_query_witness :
    ¬ '?' ∈ ("/api/v1/elections/election/2024-general" : String).data :=
  C9_no_query fetchFail "get_election" { electionid := some "2024-general" }
    "/api/v1/elections/election/2024-general" (by decide) (by decide) (by decide)

/-- Claim C10: a call-tool request without an arguments mapping runs
against an empty mapping, so list_elections still reaches the gateway
while every operation with required parameters returns a validation
envelope instead of crashing; and a caught value that is not an Error
instance yields the envelope message `Error: Unknown error occurred`. -/
theorem C10_default_args (fetch : FetchOracle) :
    (handleCallToolRequest fetch "list_elections" none).2 =
      ["/api/v1/elections/list"] ∧
    (∀ name, name ∈ ["get_election", "get_last_published", "get_races",
        "get_election_results"] →
      handleCallToolRequest fetch name none =
        ({ content := [{ type := "text", text := "Error: electionid is required" }],
           isError := true }, [])) ∧
    handleCallToolRequest fetch "get_precinct_results" none =
      ({ content := [{ type := "text"
                     , text := "Error: electionid and racenumber are required" }],
         isError := true }, []) ∧
    (∀ (name : String) (args : Option Args) (t : String),
      (handleToolCall fetch name (args.getD {})).1 =
        Except.error (Thrown.other t) →
      (handleCallToolRequest fetch name args).1 =
        { content := [{ type := "text", text := "Error: Unknown error occurred" }],
          isError := true }) := by
  refine ⟨?_, ?_, rfl, ?_⟩
  · rw [handleCallToolRequest_snd]
    rfl
  · intro name hn
    simp only [List.mem_cons, List.not_mem_nil, or_false] at hn
    rcases hn with rfl | rfl | rfl | rfl <;> rfl
  · intro name args t h
    unfold handleCallToolRequest
    simp only [h]
    rfl

/-- Witness for C10 at concrete calls. -/
theorem C10_default_args_witness :
    handleCallToolRequest fetchOther "get_election" none =
      ({ content := [{ type := "text", text := "Error: electionid is required" }],
         isError := true }, []) ∧
    (handleCallToolRequest fetchOther "list_elections" none).1 =
      { content := [{ type := "text", text := "Error: Unknown error occurred" }],
        isError := true } :=
  ⟨(C10_default_args fetchOther).2.1 "get_election" (by decide),
   (C10_default_args fetchOther).2.2.2 "list_elections" none "oops" rfl⟩

end DaneCounty
